import Mathlib

/-!
Shallow embedding of `bot.py`, a Telegram bot that stores movie files keyed
by a short code and gates delivery behind a channel-membership check.

Modelling conventions:
* Opaque transport tokens (codes, file identifiers, cover identifiers,
  channel names, bot usernames) are byte strings, `Bytes := List Nat`,
  each byte `< 256`.  Python `str` values cross the `urllib.parse`
  boundary as their UTF-8 byte sequences, so working at the byte level is
  the faithful model of `quote`/`unquote`.
* The PostgreSQL `movies` table is a list of rows; `ON CONFLICT DO NOTHING`
  and `ORDER BY file_id ASC` (byte-wise lexicographic order on TEXT) are
  modelled explicitly.  The `PRIMARY KEY (code, file_id)` constraint is the
  invariant `KeyNodup`.
* Telegram side effects are reified as a list of `Out` actions; the exact
  decorated message strings produced by `fancy` are presentation only and
  are represented by `TextTok` constructors, one per distinct literal in
  the source.
* Fallible external calls (database writes/reads, `get_chat_member`) are
  driven by explicit oracle parameters (`persistOk`, `dbOk`, `query`),
  modelling the `try/except` structure of the handlers.
-/

/-- Byte strings: the model of Python `str`/`bytes` payloads. -/
abbrev Bytes := List Nat

/-- Bytes of an ASCII literal, used to embed the string constants of the
source. -/
def ascii (s : String) : Bytes := s.data.map Char.toNat

/-- ASCII whitespace recognised by Python `str.strip` / `str.split`. -/
def isPySpace (b : Nat) : Bool :=
  b == 32 || b == 9 || b == 10 || b == 13 || b == 11 || b == 12

/-- Python `s.strip()`: drop leading and trailing whitespace. -/
def pyStrip (s : Bytes) : Bytes :=
  ((s.dropWhile isPySpace).reverse.dropWhile isPySpace).reverse

/-- Python `s.split(maxsplit=1)` with no separator: leading whitespace is
dropped, the first whitespace-free token is returned, and the remainder
(with its leading whitespace dropped, trailing kept) becomes the second
element when non-empty. -/
def splitMax1 (s : Bytes) : List Bytes :=
  let s1 := s.dropWhile isPySpace
  if s1 = [] then []
  else
    let tok := s1.takeWhile (fun b => !isPySpace b)
    let rest := (s1.dropWhile (fun b => !isPySpace b)).dropWhile isPySpace
    if rest = [] then [tok] else [tok, rest]

/-! ### Percent-encoding: `urllib.parse.quote` / `urllib.parse.unquote`

`quote(code)` (default `safe='/'`) leaves alphanumerics and `_.-~/`
untouched and rewrites every other byte as `%XX` with uppercase hex;
`unquote` scans for `%` followed by two hex digits (either case) and
decodes it to the byte, leaving malformed escapes literal. -/

/-- Bytes never escaped by `quote` with the default `safe='/'`. -/
def isSafeByte (b : Nat) : Bool :=
  (48 ≤ b && b ≤ 57) || (65 ≤ b && b ≤ 90) || (97 ≤ b && b ≤ 122) ||
  b == 45 || b == 46 || b == 95 || b == 126 || b == 47

/-- Uppercase hex digit for a nibble, as `quote` emits (`%02X`). -/
def hexDigitChar (n : Nat) : Nat := if n < 10 then 48 + n else 55 + n

/-- Hex digit recognised by `unquote` (both cases accepted). -/
def isHexDigit (c : Nat) : Bool :=
  (48 ≤ c && c ≤ 57) || (65 ≤ c && c ≤ 70) || (97 ≤ c && c ≤ 102)

/-- Value of a hex digit byte. -/
def hexVal (c : Nat) : Nat :=
  if c ≤ 57 then c - 48 else if c ≤ 70 then c - 55 else c - 87

/-- Encoding of a single byte under `quote`. -/
def quoteByte (b : Nat) : Bytes :=
  if isSafeByte b then [b] else [37, hexDigitChar (b / 16), hexDigitChar (b % 16)]

/-- Model of `urllib.parse.quote` with the default `safe='/'`, at the
UTF-8 byte level. -/
def quoteBytes : Bytes → Bytes
  | [] => []
  | b :: rest => quoteByte b ++ quoteBytes rest

/-- Model of `urllib.parse.unquote` at the UTF-8 byte level: a `%` that is
followed by two hex digits decodes to the corresponding byte, any other
byte (including a `%` not starting a valid escape) passes through. -/
def unquoteBytes : Bytes → Bytes
  | b :: h1 :: h2 :: rest =>
    if b = 37 && isHexDigit h1 && isHexDigit h2 then
      (hexVal h1 * 16 + hexVal h2) :: unquoteBytes rest
    else b :: unquoteBytes (h1 :: h2 :: rest)
  | b :: rest => b :: unquoteBytes rest
  | [] => []

/-! ### Content Store: the `movies` table -/

/-- One row of the `movies` table: `(code, file_id, cover_id)`, with
`PRIMARY KEY (code, file_id)`. -/
structure Row where
  code : Bytes
  file_id : Bytes
  cover_id : Bytes
deriving DecidableEq

/-- The primary-key constraint `PRIMARY KEY (code, file_id)` as a list
invariant: no two rows share both key columns. -/
def KeyNodup (db : List Row) : Prop :=
  db.Pairwise (fun a b => ¬(a.code = b.code ∧ a.file_id = b.file_id))

/-- Primary-key comparison of a row against `(code, file_id)`. -/
def keyMatch (code fid : Bytes) (r : Row) : Bool :=
  decide (r.code = code) && decide (r.file_id = fid)

/-- Model of `db_add_movie`: `INSERT ... ON CONFLICT (code, file_id) DO
NOTHING`.  When the key is already present the database is unchanged;
otherwise the new row is appended. -/
def db_add_movie (db : List Row) (code fid cover : Bytes) : List Row :=
  if db.any (keyMatch code fid) then db
  else db ++ [⟨code, fid, cover⟩]

/-- Comparison used to model `ORDER BY file_id ASC` (byte-wise
lexicographic order on the TEXT column). -/
def rowLe (a b : Row) : Prop := a.file_id ≤ b.file_id

instance : DecidableRel rowLe := fun a b => inferInstanceAs (Decidable (a.file_id ≤ b.file_id))

instance : IsTotal Row rowLe := ⟨fun a b => le_total a.file_id b.file_id⟩

instance : IsTrans Row rowLe := ⟨fun _ _ _ h1 h2 => le_trans h1 h2⟩

/-- Rows selected by `WHERE code = %s`. -/
def rowsFor (db : List Row) (code : Bytes) : List Row :=
  db.filter (fun r => decide (r.code = code))

/-- Model of `db_get_movies`: `SELECT file_id, cover_id FROM movies WHERE
code = %s ORDER BY file_id ASC`. -/
def db_get_movies (db : List Row) (code : Bytes) : List (Bytes × Bytes) :=
  (List.insertionSort rowLe (rowsFor db code)).map
    (fun r => (r.file_id, r.cover_id))

/-! ### Membership Gate: `user_in_all_channels` -/

/-- Result of `get_chat_member` for one user in one channel; `query`
returning `none` models the call raising an exception (bot lacks
visibility, channel unreachable, ...). -/
inductive MemberStatus
  | member | administrator | creator | restricted | left | banned
deriving DecidableEq

/-- The tuple check `member.status in ("member", "administrator",
"creator")` from the source. -/
def statusOk : MemberStatus → Bool
  | .member => true
  | .administrator => true
  | .creator => true
  | _ => false

/-- Outcome of one loop iteration of `user_in_all_channels` for a single
channel: the query must succeed and report an accepted status. -/
def chanOk (query : Bytes → Option MemberStatus) (ch : Bytes) : Bool :=
  match query ch with
  | none => false
  | some st => statusOk st

/-- Model of `user_in_all_channels`: walk the configured channel list in
order; a raised exception (`none`) or a status outside the accepted tuple
returns `False` immediately; reaching the end returns `True`. -/
def user_in_all_channels (query : Bytes → Option MemberStatus) : List Bytes → Bool
  | [] => true
  | ch :: rest =>
    match query ch with
    | none => false
    | some st => if statusOk st then user_in_all_channels query rest else false

/-! ### Upload Flow and Delivery Flow handlers

State shared by the handlers: the in-memory `_pending_adds` dict and the
database.  Message sends are reified as `Out` actions; the decorated
literals passed through `fancy` are identified by `TextTok`
constructors. -/

/-- One entry of `_pending_adds`: `{"code": ..., "file_id": ...,
"timestamp": ...}`. -/
structure PendingAdd where
  code : Bytes
  file_id : Bytes
  timestamp : Nat
deriving DecidableEq

/-- The `_pending_adds` dict, keyed by `message.from_user.id`. -/
def PendingMap := Nat → Option PendingAdd

/-- Dict assignment (`_pending_adds[k] = v`) and deletion
(`del _pending_adds[k]`, with `v = none`). -/
def setPending (m : PendingMap) (k : Nat) (v : Option PendingAdd) : PendingMap :=
  fun k2 => if k2 = k then v else m k2

/-- The empty `_pending_adds` dict at process start. -/
def emptyPending : PendingMap := fun _ => none

/-- Identifies the distinct user-facing message literals of `bot.py`
(each is wrapped in `fancy` in the source; the glyph decoration is
presentation only). -/
inductive TextTok
  | replyToMovieFile   -- "Reply to a movie file with /addmovie movie_code"
  | mustProvideCode    -- "You must provide a movie code. ..."
  | invalidCode        -- "Invalid code. Use a single token."
  | sendCoverPrompt    -- "Now send the movie cover image ..."
  | failedSaveCheckLogs -- "Failed to save movie, check logs."
  | welcome            -- "Welcome! Click a Watch link ..."
  | notFound           -- "Movie not found."
  | internalError      -- "Internal error fetching movie."
  | lockedCaption      -- "Join all channels to unlock this movie."
  | movieReady         -- "Your movie is ready!"
  | willBeDeleted      -- "This file will be deleted in a while."
deriving DecidableEq

/-- Inline keyboard buttons built in `cmd_start`. -/
inductive Btn
  | join (channel : Bytes) (url : Bytes)  -- "Join <channel>" linking to it
  | retry (url : Bytes)                   -- "I Joined - Get Movie" deep link
deriving DecidableEq

/-- Reified Telegram side effects of one handler invocation. -/
inductive Out
  | replyText (t : TextTok)
  | savedReply (link : Bytes)  -- "Movie saved! Share link:" followed by the link
  | replyPhoto (cover : Bytes) (caption : TextTok) (buttons : List Btn)
  | replyVideo (fid : Bytes) (caption : TextTok)
  | scheduleDelete (delay : Nat)  -- asyncio.create_task(delete_later(...))
deriving DecidableEq

/-- The replied-to message of an `/addmovie` command; each field is the
`file_id` of the video or document payload when present. -/
structure ReplyMsg where
  video : Option Bytes
  document : Option Bytes
deriving DecidableEq

/-- Selection `reply.video.file_id if reply.video else
reply.document.file_id`, folded with the guard `not (reply.video or
reply.document)`: `none` exactly when the reply carries neither payload. -/
def extractFid (r : ReplyMsg) : Option Bytes :=
  match r.video with
  | some v => some v
  | none => r.document

/-- The deep link `f"https://t.me/{me.username}?start={quote(code)}"`. -/
def deep_link (username code : Bytes) : Bytes :=
  ascii "https://t.me/" ++ username ++ ascii "?start=" ++ quoteBytes code

/-- Channel handle used for join-button URLs: `ch.strip().lstrip("@")`. -/
def channel_handle (ch : Bytes) : Bytes :=
  (pyStrip ch).dropWhile (fun b => b == 64)

/-- Join-button URL `f"https://t.me/{ch.strip().lstrip('@')}"`. -/
def channel_url (ch : Bytes) : Bytes :=
  ascii "https://t.me/" ++ channel_handle ch

/-- Model of the `cmd_addmovie` handler body (the handler itself is
registered only for the admin user or the source channel).  Arguments:
the current `_pending_adds` dict, the sender id, the raw message text,
the replied-to message (if any) and the current time. -/
def cmd_addmovie (pending : PendingMap) (fromUser : Nat) (text : Bytes)
    (reply : Option ReplyMsg) (now : Nat) : PendingMap × List Out :=
  match reply with
  | none => (pending, [Out.replyText .replyToMovieFile])
  | some r =>
    match extractFid r with
    | none => (pending, [Out.replyText .replyToMovieFile])
    | some fid =>
      match splitMax1 text with
      | [] => (pending, [Out.replyText .mustProvideCode])
      | [_] => (pending, [Out.replyText .mustProvideCode])
      | _ :: arg :: _ =>
        let code := pyStrip arg
        if code = [] ∨ 32 ∈ code then (pending, [Out.replyText .invalidCode])
        else
          (setPending pending fromUser (some ⟨code, fid, now⟩),
           [Out.replyText .sendCoverPrompt])

/-- Model of the `receive_cover` handler body (registered for photos from
the admin user).  `persistOk` is the oracle for the `try`-guarded
database insert: when `false` the insert raises, the `del` statement and
the saved-reply are skipped, and the except-branch replies with the
check-logs message.  Returns the new `_pending_adds` dict, the new
database, and the sends. -/
def receive_cover (persistOk : Bool) (pending : PendingMap) (db : List Row)
    (fromUser : Nat) (photoFid username : Bytes) :
    PendingMap × List Row × List Out :=
  match pending fromUser with
  | none => (pending, db, [])
  | some rec =>
    if persistOk then
      (setPending pending fromUser none,
       db_add_movie db rec.code rec.file_id photoFid,
       [Out.savedReply (deep_link username rec.code)])
    else
      (pending, db, [Out.replyText .failedSaveCheckLogs])

/-- Model of the `cmd_start` handler body.  `command` is pyrogram's
`message.command` (the command word followed by its arguments); `dbOk`
is the oracle for the `try`-guarded database read; `query` drives the
Membership Gate. -/
def cmd_start (query : Bytes → Option MemberStatus) (channels : List Bytes)
    (username : Bytes) (db : List Row) (dbOk : Bool) (deleteAfter : Nat)
    (command : List Bytes) : List Out :=
  match command with
  | [] => [Out.replyText .welcome]
  | [_] => [Out.replyText .welcome]
  | _ :: arg :: _ =>
    let code := unquoteBytes (pyStrip arg)
    if dbOk then
      match db_get_movies db code with
      | [] => [Out.replyText .notFound]
      | first :: restRows =>
        if user_in_all_channels query channels then
          (first :: restRows).flatMap (fun fc =>
            [Out.replyPhoto fc.2 .movieReady [],
             Out.replyVideo fc.1 .willBeDeleted,
             Out.scheduleDelete deleteAfter,
             Out.scheduleDelete deleteAfter])
        else
          [Out.replyPhoto first.2 .lockedCaption
            (channels.map (fun ch => Btn.join ch (channel_url ch)) ++
             [Btn.retry (deep_link username code)])]
    else [Out.replyText .internalError]

/-! ### One-step handler dispatch (used to state the pending-map
invariant over every handler invocation) -/

/-- One inbound event dispatched to a handler, together with the oracles
for the fallible external calls it makes. -/
inductive Event
  | addmovie (fromUser : Nat) (text : Bytes) (reply : Option ReplyMsg) (now : Nat)
  | photo (fromUser : Nat) (photoFid : Bytes) (persistOk : Bool)
  | start (fromUser : Nat) (command : List Bytes) (dbOk : Bool)

/-- Process-wide mutable state touched by the handlers. -/
structure BotState where
  pending : PendingMap
  db : List Row

/-- Dispatch of one event to its handler. -/
def handle (query : Bytes → Option MemberStatus) (channels : List Bytes)
    (username : Bytes) (deleteAfter : Nat) (s : BotState) :
    Event → BotState × List Out
  | .addmovie fromUser text reply now =>
    (⟨(cmd_addmovie s.pending fromUser text reply now).1, s.db⟩,
     (cmd_addmovie s.pending fromUser text reply now).2)
  | .photo fromUser photoFid persistOk =>
    (⟨(receive_cover persistOk s.pending s.db fromUser photoFid username).1,
      (receive_cover persistOk s.pending s.db fromUser photoFid username).2.1⟩,
     (receive_cover persistOk s.pending s.db fromUser photoFid username).2.2)
  | .start _ command dbOk =>
    (s, cmd_start query channels username s.db dbOk deleteAfter command)

/-- Well-formedness of a pending record as enforced by the `cmd_addmovie`
validation: non-empty code with no space byte. -/
def PendingValid (p : PendingAdd) : Prop := p.code ≠ [] ∧ 32 ∉ p.code

/-- A pending record whose content reference was taken from the
replied-to video or document of the triggering event. -/
def RecFromEvent : Event → PendingAdd → Prop
  | .addmovie _ _ reply _, rec => ∃ r, reply = some r ∧ extractFid r = some rec.file_id
  | _, _ => False

/-! ### Startup and configuration (`require_env`, module init, `__main__`) -/

/-- Model of `require_env`: look the name up in the process environment
and raise (`Except.error`) when it is absent or empty (`if not val`). -/
def require_env (env : String → Option String) (name : String) : Except String String :=
  match env name with
  | some v => if v = "" then Except.error name else Except.ok v
  | none => Except.error name

/-- The configuration read at module initialisation, lines 51-56 of the
source. -/
structure BotConfig where
  api_id : String
  api_hash : String
  bot_token : String
  admin_id : String
  database_url : String
  source_channel : String
deriving DecidableEq

/-- The six `require_env` calls at module scope, in source order. -/
def load_config (env : String → Option String) : Except String BotConfig := do
  let a ← require_env env "API_ID"
  let b ← require_env env "API_HASH"
  let c ← require_env env "BOT_TOKEN"
  let d ← require_env env "ADMIN_ID"
  let e ← require_env env "DATABASE_URL"
  let f ← require_env env "SOURCE_CHANNEL"
  pure ⟨a, b, c, d, e, f⟩

/-- The required configuration names. -/
def requiredEnvVars : List String :=
  ["API_ID", "API_HASH", "BOT_TOKEN", "ADMIN_ID", "DATABASE_URL", "SOURCE_CHANNEL"]

/-- Outcome of a successful startup: the keep-alive thread is started,
database initialisation is attempted (its outcome recorded), and
`bot.run()` is reached unconditionally. -/
structure StartupResult where
  config : BotConfig
  keepaliveStarted : Bool
  dbInitOk : Bool
  botRunning : Bool
deriving DecidableEq

/-- Model of process startup: module initialisation loads the
configuration (any failure aborts before anything is served), then
`__main__` starts the keep-alive server, runs `async_db_init` inside
`try/except` (a failure is logged and swallowed, `dbInitOk` records the
oracle outcome), and finally calls `bot.run()` on every path. -/
def startup (env : String → Option String) (dbInitOk : Bool) :
    Except String StartupResult := do
  let cfg ← load_config env
  pure ⟨cfg, true, dbInitOk, true⟩

/-! ## Supporting lemmas -/

theorem isSafeByte_ne_37 {b : Nat} (h : isSafeByte b = true) : b ≠ 37 := by
  intro heq
  subst heq
  simp [isSafeByte] at h

theorem unquoteBytes_cons_ne {b : Nat} (hb : b ≠ 37) (t : Bytes) :
    unquoteBytes (b :: t) = b :: unquoteBytes t := by
  match t with
  | [] => simp [unquoteBytes]
  | [x] => simp [unquoteBytes]
  | x :: y :: t2 => simp [unquoteBytes, hb]

theorem isHexDigit_hexDigitChar {n : Nat} (h : n < 16) :
    isHexDigit (hexDigitChar n) = true := by
  unfold isHexDigit hexDigitChar
  split <;> simp <;> omega

theorem hexVal_hexDigitChar {n : Nat} (h : n < 16) :
    hexVal (hexDigitChar n) = n := by
  unfold hexVal hexDigitChar
  by_cases h10 : n < 10
  · rw [if_pos h10, if_pos (show 48 + n ≤ 57 by omega)]
    omega
  · rw [if_neg h10, if_neg (show ¬55 + n ≤ 57 by omega),
      if_pos (show 55 + n ≤ 70 by omega)]
    omega

theorem unquoteBytes_quoteByte {b : Nat} (hb : b < 256) (t : Bytes) :
    unquoteBytes (quoteByte b ++ t) = b :: unquoteBytes t := by
  by_cases hs : isSafeByte b = true
  · simp only [quoteByte, if_pos hs, List.cons_append, List.nil_append]
    exact unquoteBytes_cons_ne (isSafeByte_ne_37 hs) t
  · have hdiv : b / 16 < 16 := by omega
    have hmod : b % 16 < 16 := by omega
    simp only [quoteByte, if_neg hs, List.cons_append, List.nil_append]
    simp [unquoteBytes, isHexDigit_hexDigitChar hdiv, isHexDigit_hexDigitChar hmod,
      hexVal_hexDigitChar hdiv, hexVal_hexDigitChar hmod]
    omega

/-! ## Claims -/

/-- C7: decoding after encoding through the deep link is the identity on
every code, including codes holding reserved URL characters such as a
space or an ampersand.  Codes are modelled as their UTF-8 byte sequences,
so the hypothesis states that every element is a byte. -/
theorem unquote_quote_id (l : Bytes) (h : ∀ b ∈ l, b < 256) :
    unquoteBytes (quoteBytes l) = l := by
  induction l with
  | nil => rfl
  | cons b rest ih =>
    have hb : b < 256 := h b (List.mem_cons_self b rest)
    have hrest : ∀ x ∈ rest, x < 256 := fun x hx => h x (List.mem_cons_of_mem b hx)
    simp only [quoteBytes]
    rw [unquoteBytes_quoteByte hb, ih hrest]

/-- Witness for C7 at the code `"a &b"`, which holds a space and an
ampersand. -/
theorem unquote_quote_id_witness :
    (∀ b ∈ ascii "a &b", b < 256) ∧ unquoteBytes (quoteBytes (ascii "a &b")) = ascii "a &b" :=
  ⟨by decide, unquote_quote_id (ascii "a &b") (by decide)⟩

/-- C10: a photo from the admin while no pending record exists for them is
silently ignored: no reply is sent, the database is untouched, and the
pending-upload map is unchanged. -/
theorem receive_cover_ignores_without_pending (persistOk : Bool) (pending : PendingMap)
    (db : List Row) (fromUser : Nat) (photoFid username : Bytes)
    (h : pending fromUser = none) :
    receive_cover persistOk pending db fromUser photoFid username = (pending, db, []) := by
  simp [receive_cover, h]

/-- Witness for C10 on the empty pending map. -/
theorem receive_cover_ignores_without_pending_witness :
    emptyPending 7 = none ∧
      receive_cover true emptyPending [] 7 (ascii "cov") (ascii "bot") =
        (emptyPending, [], []) :=
  ⟨rfl, receive_cover_ignores_without_pending true emptyPending [] 7 (ascii "cov")
    (ascii "bot") rfl⟩

/-- Concrete pending map holding one record for admin id 7, used by
counterexamples. -/
def pendingDemo : PendingMap :=
  setPending emptyPending 7 (some ⟨ascii "demo", ascii "vid", 0⟩)

/-- C1 counterexample: when the database insert raises while a cover
photo is received, the pending record is NOT deleted — the `del` sits
after the insert inside the `try` block, so the failing insert skips it
and the record for admin 7 is still present afterwards. -/
theorem receive_cover_fail_cex :
    (receive_cover false pendingDemo [] 7 (ascii "cov") (ascii "bot")).1 7 =
        some ⟨ascii "demo", ascii "vid", 0⟩ ∧
      (receive_cover false pendingDemo [] 7 (ascii "cov") (ascii "bot")).1 7 ≠ none := by
  constructor
  · rfl
  · intro h
    simp [receive_cover, pendingDemo, setPending, emptyPending] at h

/-- C1 amended: if persisting the entry fails when the cover photo is
received, the pending record for that admin is retained (the deletion is
skipped), the user receives the check-logs failure message, and nothing
is written or retried: the map, the database and the single failure reply
are exactly as before the attempt. -/
theorem receive_cover_fail_retains_pending (pending : PendingMap) (db : List Row)
    (fromUser : Nat) (photoFid username : Bytes) (rec : PendingAdd)
    (h : pending fromUser = some rec) :
    receive_cover false pending db fromUser photoFid username =
      (pending, db, [Out.replyText .failedSaveCheckLogs]) := by
  simp [receive_cover, h]

/-- Witness for the amended C1 at a concrete pending record. -/
theorem receive_cover_fail_retains_pending_witness :
    pendingDemo 7 = some ⟨ascii "demo", ascii "vid", 0⟩ ∧
      receive_cover false pendingDemo [] 7 (ascii "cov") (ascii "bot") =
        (pendingDemo, [], [Out.replyText .failedSaveCheckLogs]) :=
  ⟨rfl, receive_cover_fail_retains_pending pendingDemo [] 7 (ascii "cov") (ascii "bot")
    ⟨ascii "demo", ascii "vid", 0⟩ rfl⟩

/-- C2 counterexample: there is no mode-selection step.  Immediately after
a valid add command the pending record holds exactly a code, a content
reference and a timestamp (the record type has no mode field), the reply
already prompts for the cover, and a photo arriving next — with no
intervening interactive choice — is accepted and persisted.  So the flow
never passes through an AwaitingMode state. -/
theorem addmovie_no_mode_step_cex :
    (cmd_addmovie emptyPending 7 (ascii "/addmovie demo")
        (some ⟨some (ascii "vid"), none⟩) 0).2 = [Out.replyText .sendCoverPrompt] ∧
    (cmd_addmovie emptyPending 7 (ascii "/addmovie demo")
        (some ⟨some (ascii "vid"), none⟩) 0).1 7 =
      some ⟨ascii "demo", ascii "vid", 0⟩ ∧
    (receive_cover true
        (cmd_addmovie emptyPending 7 (ascii "/addmovie demo")
          (some ⟨some (ascii "vid"), none⟩) 0).1
        [] 7 (ascii "cov") (ascii "bot")).2.1 =
      [⟨ascii "demo", ascii "vid", ascii "cov"⟩] := by decide

/-- C2 amended: after a valid add command the flow moves directly to
awaiting the cover photo: the pending record stores only the code, the
content reference from the replied-to message and a timestamp (no mode),
the reply prompts for the cover, and the next photo from that admin is
persisted at once — there is no mode-selection step anywhere in the
flow. -/
theorem addmovie_direct_to_cover (pending : PendingMap) (fromUser : Nat)
    (text : Bytes) (r : ReplyMsg) (fid : Bytes) (now : Nat) (t0 arg : Bytes)
    (db : List Row) (photoFid username : Bytes)
    (hfid : extractFid r = some fid)
    (hsplit : splitMax1 text = [t0, arg])
    (hne : pyStrip arg ≠ [])
    (hsp : 32 ∉ pyStrip arg) :
    cmd_addmovie pending fromUser text (some r) now =
      (setPending pending fromUser (some ⟨pyStrip arg, fid, now⟩),
       [Out.replyText .sendCoverPrompt]) ∧
    receive_cover true (setPending pending fromUser (some ⟨pyStrip arg, fid, now⟩))
        db fromUser photoFid username =
      (setPending (setPending pending fromUser (some ⟨pyStrip arg, fid, now⟩))
         fromUser none,
       db_add_movie db (pyStrip arg) fid photoFid,
       [Out.savedReply (deep_link username (pyStrip arg))]) := by
  have hcond : ¬(pyStrip arg = [] ∨ 32 ∈ pyStrip arg) := by
    push_neg
    exact ⟨hne, hsp⟩
  constructor
  · simp only [cmd_addmovie, hfid, hsplit]
    rw [if_neg hcond]
  · have hlook : (setPending pending fromUser (some ⟨pyStrip arg, fid, now⟩)) fromUser =
        some ⟨pyStrip arg, fid, now⟩ := by simp [setPending]
    simp [receive_cover, hlook]

/-- Witness for the amended C2 at the concrete add command
"/addmovie demo" replying to a video. -/
theorem addmovie_direct_to_cover_witness :
    extractFid ⟨some (ascii "vid"), none⟩ = some (ascii "vid") ∧
    splitMax1 (ascii "/addmovie demo") = [ascii "/addmovie", ascii "demo"] ∧
    pyStrip (ascii "demo") ≠ [] ∧
    32 ∉ pyStrip (ascii "demo") ∧
    (cmd_addmovie emptyPending 7 (ascii "/addmovie demo")
        (some ⟨some (ascii "vid"), none⟩) 0 =
      (setPending emptyPending 7 (some ⟨pyStrip (ascii "demo"), ascii "vid", 0⟩),
       [Out.replyText .sendCoverPrompt]) ∧
     receive_cover true
        (setPending emptyPending 7 (some ⟨pyStrip (ascii "demo"), ascii "vid", 0⟩))
        [] 7 (ascii "cov") (ascii "bot") =
      (setPending (setPending emptyPending 7
          (some ⟨pyStrip (ascii "demo"), ascii "vid", 0⟩)) 7 none,
       db_add_movie [] (pyStrip (ascii "demo")) (ascii "vid") (ascii "cov"),
       [Out.savedReply (deep_link (ascii "bot") (pyStrip (ascii "demo")))])) :=
  ⟨by decide, by decide, by decide, by decide,
   addmovie_direct_to_cover emptyPending 7 (ascii "/addmovie demo")
     ⟨some (ascii "vid"), none⟩ (ascii "vid") 0 (ascii "/addmovie") (ascii "demo")
     [] (ascii "cov") (ascii "bot") (by decide) (by decide) (by decide) (by decide)⟩

theorem chanOk_iff (query : Bytes → Option MemberStatus) (ch : Bytes) :
    chanOk query ch = true ↔ ∃ st, query ch = some st ∧ statusOk st = true := by
  unfold chanOk
  cases h : query ch <;> simp

theorem user_in_all_cons (query : Bytes → Option MemberStatus) (ch : Bytes)
    (rest : List Bytes) :
    user_in_all_channels query (ch :: rest) =
      (chanOk query ch && user_in_all_channels query rest) := by
  cases hq : query ch with
  | none => simp [user_in_all_channels, chanOk, hq]
  | some st =>
    cases h : statusOk st <;>
      simp [user_in_all_channels, chanOk, hq, h]

/-- C3: the membership check returns true iff every configured channel
reports a status in {member, administrator, creator}; any other status or
any query failure on some channel makes the result false, and the result
is already false at the first failing channel in configured order,
independently of everything that follows it (short circuit). -/
theorem user_in_all_channels_spec (query : Bytes → Option MemberStatus)
    (chs : List Bytes) :
    (user_in_all_channels query chs = true ↔
      ∀ ch ∈ chs, ∃ st, query ch = some st ∧ statusOk st = true) ∧
    (∀ pre c post2, (∀ ch ∈ pre, chanOk query ch = true) → chanOk query c = false →
      user_in_all_channels query (pre ++ c :: post2) = false) := by
  constructor
  · induction chs with
    | nil => simp [user_in_all_channels]
    | cons ch rest ih =>
      rw [user_in_all_cons]
      simp only [Bool.and_eq_true, ih, List.forall_mem_cons, chanOk_iff]
  · intro pre c post2 hpre hc
    induction pre with
    | nil =>
      rw [List.nil_append, user_in_all_cons, hc]
      rfl
    | cons p pre ih =>
      rw [List.cons_append, user_in_all_cons,
        hpre p (List.mem_cons_self p pre),
        ih (fun ch h2 => hpre ch (List.mem_cons_of_mem p h2))]
      rfl

/-- Concrete membership oracle used by the C3 witness: member of `@A`
only; every other channel query fails. -/
def queryDemo : Bytes → Option MemberStatus :=
  fun ch => if ch = ascii "@A" then some .member else none

/-- Witness for C3: member of `@A` but not of `@B` gives false on the
configured list `[@A, @B]`, via the short-circuit clause. -/
theorem user_in_all_channels_spec_witness :
    chanOk queryDemo (ascii "@A") = true ∧
    chanOk queryDemo (ascii "@B") = false ∧
    user_in_all_channels queryDemo [ascii "@A", ascii "@B"] = false :=
  ⟨by decide, by decide,
   (user_in_all_channels_spec queryDemo [ascii "@A", ascii "@B"]).2
     [ascii "@A"] (ascii "@B") []
     (by intro ch h; simp at h; subst h; decide)
     (by decide)⟩

/-- C4: adding the same `(code, contentRef)` twice, with any two covers,
leaves exactly one row for that key (assuming the primary-key invariant,
stated for the key at hand); the second call is a no-op — in particular
it neither errors (the operation is total) nor overwrites the cover
stored by the first call — and a fresh first call stores `c1` as the
cover. -/
theorem db_add_movie_idempotent (db : List Row) (code fid c1 c2 : Bytes)
    (hinv : db.countP (keyMatch code fid) ≤ 1) :
    db_add_movie (db_add_movie db code fid c1) code fid c2 =
      db_add_movie db code fid c1 ∧
    (db_add_movie db code fid c1).countP (keyMatch code fid) = 1 ∧
    (db.countP (keyMatch code fid) = 0 →
      db_add_movie db code fid c1 = db ++ [⟨code, fid, c1⟩]) := by
  have hkey : keyMatch code fid ⟨code, fid, c1⟩ = true := by simp [keyMatch]
  by_cases h : db.any (keyMatch code fid) = true
  · have hdb1 : db_add_movie db code fid c1 = db := by simp [db_add_movie, h]
    have hpos : 0 < db.countP (keyMatch code fid) :=
      List.countP_pos_iff.mpr (List.any_eq_true.mp h)
    refine ⟨?_, ?_, ?_⟩
    · rw [hdb1]
      simp [db_add_movie, h]
    · rw [hdb1]
      omega
    · intro h0
      omega
  · have hdb1 : db_add_movie db code fid c1 = db ++ [⟨code, fid, c1⟩] := by
      simp [db_add_movie, h]
    have hany2 : (db ++ [(⟨code, fid, c1⟩ : Row)]).any (keyMatch code fid) = true := by
      simp [hkey]
    have hc0 : db.countP (keyMatch code fid) = 0 := by
      rcases Nat.eq_zero_or_pos (db.countP (keyMatch code fid)) with h0 | h0
      · exact h0
      · exact absurd (List.any_eq_true.mpr (List.countP_pos_iff.mp h0)) h
    refine ⟨?_, ?_, fun _ => hdb1⟩
    · rw [hdb1]
      simp [db_add_movie, hany2]
    · rw [hdb1, List.countP_append, hc0, List.countP_cons, hkey]
      simp

/-- Witness for C4 on the empty table with covers `c1`, `c2`. -/
theorem db_add_movie_idempotent_witness :
    ([] : List Row).countP (keyMatch (ascii "demo") (ascii "f1")) ≤ 1 ∧
    (db_add_movie (db_add_movie [] (ascii "demo") (ascii "f1") (ascii "c1"))
        (ascii "demo") (ascii "f1") (ascii "c2") =
      db_add_movie [] (ascii "demo") (ascii "f1") (ascii "c1") ∧
     (db_add_movie [] (ascii "demo") (ascii "f1") (ascii "c1")).countP
        (keyMatch (ascii "demo") (ascii "f1")) = 1 ∧
     (([] : List Row).countP (keyMatch (ascii "demo") (ascii "f1")) = 0 →
       db_add_movie [] (ascii "demo") (ascii "f1") (ascii "c1") =
         [] ++ [⟨ascii "demo", ascii "f1", ascii "c1"⟩])) :=
  ⟨by decide,
   db_add_movie_idempotent [] (ascii "demo") (ascii "f1") (ascii "c1") (ascii "c2")
     (by decide)⟩

theorem except_bind_ok {α β : Type} {x : Except String α} {f : α → Except String β}
    {b : β} (h : x >>= f = Except.ok b) :
    ∃ a, x = Except.ok a ∧ f a = Except.ok b := by
  cases x with
  | error e => simp [Bind.bind, Except.bind] at h
  | ok a => exact ⟨a, rfl, by simpa [Bind.bind, Except.bind] using h⟩

theorem require_env_ok {env : String → Option String} {n v : String}
    (h : require_env env n = Except.ok v) : env n = some v ∧ v ≠ "" := by
  unfold require_env at h
  cases he : env n with
  | none => simp [he] at h
  | some s =>
    simp only [he] at h
    by_cases hs : s = ""
    · simp [hs] at h
    · simp only [if_neg hs, Except.ok.injEq] at h
      subst h
      exact ⟨rfl, hs⟩

theorem startup_ok_env {env : String → Option String} {dbOk : Bool} {r : StartupResult}
    (h : startup env dbOk = Except.ok r) :
    ∀ v ∈ requiredEnvVars, ∃ s, env v = some s ∧ s ≠ "" := by
  unfold startup at h
  obtain ⟨cfg, hcfg, -⟩ := except_bind_ok h
  unfold load_config at hcfg
  obtain ⟨a, ha, hcfg⟩ := except_bind_ok hcfg
  obtain ⟨b, hb, hcfg⟩ := except_bind_ok hcfg
  obtain ⟨c, hc, hcfg⟩ := except_bind_ok hcfg
  obtain ⟨d, hd, hcfg⟩ := except_bind_ok hcfg
  obtain ⟨e, he, hcfg⟩ := except_bind_ok hcfg
  obtain ⟨f, hf, -⟩ := except_bind_ok hcfg
  intro v hv
  simp only [requiredEnvVars, List.mem_cons, List.not_mem_nil, or_false] at hv
  rcases hv with rfl | rfl | rfl | rfl | rfl | rfl
  · exact ⟨a, require_env_ok ha⟩
  · exact ⟨b, require_env_ok hb⟩
  · exact ⟨c, require_env_ok hc⟩
  · exact ⟨d, require_env_ok hd⟩
  · exact ⟨e, require_env_ok he⟩
  · exact ⟨f, require_env_ok hf⟩

/-- C8: a missing (or empty) required configuration setting makes startup
fail before anything is served, while the outcome of the `try`-guarded
initial database setup has no influence on whether the bot starts:
whenever startup completes, `bot.run()` is reached, with the database
initialisation outcome merely recorded, and startup completes for a given
environment either for both database outcomes or for neither. -/
theorem startup_spec (env : String → Option String) (dbOk : Bool) :
    ((∃ v ∈ requiredEnvVars, env v = none ∨ env v = some "") →
      ∃ e, startup env dbOk = Except.error e) ∧
    (∀ r, startup env dbOk = Except.ok r →
      r.botRunning = true ∧ r.keepaliveStarted = true ∧ r.dbInitOk = dbOk) ∧
    ((startup env true).isOk ↔ (startup env false).isOk) := by
  refine ⟨?_, ?_, ?_⟩
  · rintro ⟨v, hv, hmiss⟩
    cases hs : startup env dbOk with
    | error e => exact ⟨e, rfl⟩
    | ok r =>
      exfalso
      obtain ⟨s, hsome, hne⟩ := startup_ok_env hs v hv
      rcases hmiss with h0 | h0
      · rw [h0] at hsome
        exact Option.noConfusion hsome
      · rw [h0] at hsome
        exact hne (Option.some.inj hsome).symm
  · intro r hr
    unfold startup at hr
    obtain ⟨cfg, -, hpure⟩ := except_bind_ok hr
    simp only [pure, Except.pure] at hpure
    cases hpure
    exact ⟨rfl, rfl, rfl⟩
  · unfold startup
    cases hl : load_config env <;>
      simp [Bind.bind, Except.bind, Except.isOk, Except.toBool, pure, Except.pure]

/-- Witness for C8 on the empty environment (every required name
missing). -/
theorem startup_spec_witness :
    ((fun _ => (none : Option String)) "API_ID" = none ∨
      (fun _ => (none : Option String)) "API_ID" = some "") ∧
    ∃ e, startup (fun _ => none) true = Except.error e :=
  ⟨Or.inl rfl,
   (startup_spec (fun _ => none) true).1
     ⟨"API_ID", by simp [requiredEnvVars], Or.inl rfl⟩⟩

/-- Strict version of the retrieval order, used to show sorted outputs
with distinct keys are unique. -/
def rowLt (a b : Row) : Prop := a.file_id < b.file_id

instance : IsAntisymm Row rowLt := ⟨fun _ _ h1 h2 => absurd h2 (lt_asymm h1)⟩

theorem rowsFor_code {db : List Row} {code : Bytes} {r : Row}
    (h : r ∈ rowsFor db code) : r.code = code := by
  rw [rowsFor, List.mem_filter] at h
  exact of_decide_eq_true h.2

theorem rowsFor_pairwise_ne {db : List Row} (code : Bytes) (hinv : KeyNodup db) :
    (rowsFor db code).Pairwise (fun a b => a.file_id ≠ b.file_id) := by
  have h1 : (rowsFor db code).Pairwise
      (fun a b => ¬(a.code = b.code ∧ a.file_id = b.file_id)) :=
    List.Pairwise.filter _ hinv
  refine h1.imp_of_mem ?_
  intro a b ha hb hR hfid
  exact hR ⟨(rowsFor_code ha).trans (rowsFor_code hb).symm, hfid⟩

/-- C5: for every code, retrieval returns exactly the stored entries for
that code (as a permutation of the projected selection), sorted by
content reference lexicographically ascending; the result does not depend
on insertion order (any reordering of the table yields the same output,
given the primary-key invariant); and an unknown code yields the empty
list, not an error (the operation is total). -/
theorem db_get_movies_spec (db db2 : List Row) (code : Bytes)
    (hinv : KeyNodup db) (hperm : db2.Perm db) :
    List.Sorted (fun p q : Bytes × Bytes => p.1 ≤ q.1) (db_get_movies db code) ∧
    (db_get_movies db code).Perm
      ((rowsFor db code).map (fun r => (r.file_id, r.cover_id))) ∧
    db_get_movies db2 code = db_get_movies db code ∧
    ((∀ r ∈ db, r.code ≠ code) → db_get_movies db code = []) := by
  refine ⟨?_, ?_, ?_, ?_⟩
  · rw [db_get_movies, List.Sorted, List.pairwise_map]
    exact (List.sorted_insertionSort rowLe (rowsFor db code)).imp (fun h => h)
  · exact (List.perm_insertionSort rowLe (rowsFor db code)).map _
  · have h1 : (rowsFor db2 code).Perm (rowsFor db code) := hperm.filter _
    have hneF : (rowsFor db code).Pairwise (fun a b => a.file_id ≠ b.file_id) :=
      rowsFor_pairwise_ne code hinv
    have hp2 : (List.insertionSort rowLe (rowsFor db2 code)).Perm (rowsFor db code) :=
      (List.perm_insertionSort rowLe _).trans h1
    have hp1 : (List.insertionSort rowLe (rowsFor db code)).Perm (rowsFor db code) :=
      List.perm_insertionSort rowLe _
    have hlt2 : (List.insertionSort rowLe (rowsFor db2 code)).Pairwise rowLt := by
      have hs : (List.insertionSort rowLe (rowsFor db2 code)).Pairwise rowLe :=
        List.sorted_insertionSort rowLe (rowsFor db2 code)
      have hne := (hp2.pairwise_iff (fun h => Ne.symm h)).mpr hneF
      exact (hs.and hne).imp (fun h => lt_of_le_of_ne h.1 h.2)
    have hlt1 : (List.insertionSort rowLe (rowsFor db code)).Pairwise rowLt := by
      have hs : (List.insertionSort rowLe (rowsFor db code)).Pairwise rowLe :=
        List.sorted_insertionSort rowLe (rowsFor db code)
      have hne := (hp1.pairwise_iff (fun h => Ne.symm h)).mpr hneF
      exact (hs.and hne).imp (fun h => lt_of_le_of_ne h.1 h.2)
    have heq : List.insertionSort rowLe (rowsFor db2 code) =
        List.insertionSort rowLe (rowsFor db code) :=
      List.eq_of_perm_of_sorted (hp2.trans hp1.symm) hlt2 hlt1
    rw [db_get_movies, db_get_movies, heq]
  · intro hnone
    have hf : rowsFor db code = [] := by
      rw [rowsFor, List.filter_eq_nil_iff]
      intro a ha
      simp only [decide_eq_true_eq]
      exact hnone a ha
    rw [db_get_movies, hf]
    rfl

/-- The spec's ordering example: entries for code `s` with content
references ep01, ep10, ep02, inserted in that order. -/
def dbEp : List Row :=
  [⟨ascii "s", ascii "ep01", ascii "c1"⟩,
   ⟨ascii "s", ascii "ep10", ascii "c2"⟩,
   ⟨ascii "s", ascii "ep02", ascii "c3"⟩]

/-- A reordering of `dbEp`, to witness insertion-order independence. -/
def dbEp2 : List Row :=
  [⟨ascii "s", ascii "ep10", ascii "c2"⟩,
   ⟨ascii "s", ascii "ep02", ascii "c3"⟩,
   ⟨ascii "s", ascii "ep01", ascii "c1"⟩]

/-- Witness for C5 on the spec's ep01/ep10/ep02 example, including the
concrete sorted output. -/
theorem db_get_movies_spec_witness :
    KeyNodup dbEp ∧ dbEp2.Perm dbEp ∧
    (List.Sorted (fun p q : Bytes × Bytes => p.1 ≤ q.1)
        (db_get_movies dbEp (ascii "s")) ∧
      (db_get_movies dbEp (ascii "s")).Perm
        ((rowsFor dbEp (ascii "s")).map (fun r => (r.file_id, r.cover_id))) ∧
      db_get_movies dbEp2 (ascii "s") = db_get_movies dbEp (ascii "s") ∧
      ((∀ r ∈ dbEp, r.code ≠ ascii "s") → db_get_movies dbEp (ascii "s") = [])) ∧
    db_get_movies dbEp (ascii "s") =
      [(ascii "ep01", ascii "c1"), (ascii "ep02", ascii "c3"),
       (ascii "ep10", ascii "c2")] :=
  ⟨by rw [KeyNodup]; decide, by decide,
   db_get_movies_spec dbEp dbEp2 (ascii "s") (by rw [KeyNodup]; decide) (by decide),
   by decide⟩

/-- C6: a user who fails the membership gate requesting a code with at
least one stored entry gets exactly one reply: the first entry's cover
photo with the locked-content caption, one join button per configured
channel (in configured order) and one retry button carrying the same deep
link; no video is sent and nothing else happens. -/
theorem cmd_start_locked_flow (query : Bytes → Option MemberStatus)
    (channels : List Bytes) (username : Bytes) (db : List Row)
    (deleteAfter : Nat) (cmd0 arg : Bytes) (args : List Bytes)
    (first : Bytes × Bytes) (restRows : List (Bytes × Bytes))
    (fid : Bytes) (cap : TextTok)
    (hmem : user_in_all_channels query channels = false)
    (hrows : db_get_movies db (unquoteBytes (pyStrip arg)) = first :: restRows) :
    cmd_start query channels username db true deleteAfter (cmd0 :: arg :: args) =
      [Out.replyPhoto first.2 .lockedCaption
        (channels.map (fun ch => Btn.join ch (channel_url ch)) ++
         [Btn.retry (deep_link username (unquoteBytes (pyStrip arg)))])] ∧
    Out.replyVideo fid cap ∉
      cmd_start query channels username db true deleteAfter (cmd0 :: arg :: args) := by
  have h1 : cmd_start query channels username db true deleteAfter (cmd0 :: arg :: args) =
      [Out.replyPhoto first.2 .lockedCaption
        (channels.map (fun ch => Btn.join ch (channel_url ch)) ++
         [Btn.retry (deep_link username (unquoteBytes (pyStrip arg)))])] := by
    simp only [cmd_start, hrows, hmem, if_true]
    simp
  refine ⟨h1, ?_⟩
  rw [h1]
  simp

/-- Witness for C6: a user who is in no channel requests code `s` (three
entries stored) with channels `@A`, `@B` configured. -/
theorem cmd_start_locked_flow_witness :
    user_in_all_channels (fun _ => none) [ascii "@A", ascii "@B"] = false ∧
    db_get_movies dbEp (unquoteBytes (pyStrip (ascii "s"))) =
      (ascii "ep01", ascii "c1") ::
        [(ascii "ep02", ascii "c3"), (ascii "ep10", ascii "c2")] ∧
    (cmd_start (fun _ => none) [ascii "@A", ascii "@B"] (ascii "bot") dbEp true 1200
        [ascii "/start", ascii "s"] =
      [Out.replyPhoto (ascii "c1") .lockedCaption
        ([ascii "@A", ascii "@B"].map (fun ch => Btn.join ch (channel_url ch)) ++
         [Btn.retry (deep_link (ascii "bot") (unquoteBytes (pyStrip (ascii "s"))))])] ∧
     Out.replyVideo (ascii "ep01") .willBeDeleted ∉
       cmd_start (fun _ => none) [ascii "@A", ascii "@B"] (ascii "bot") dbEp true 1200
         [ascii "/start", ascii "s"]) :=
  ⟨by decide, by decide,
   cmd_start_locked_flow (fun _ => none) [ascii "@A", ascii "@B"] (ascii "bot") dbEp
     1200 (ascii "/start") (ascii "s") [] (ascii "ep01", ascii "c1")
     [(ascii "ep02", ascii "c3"), (ascii "ep10", ascii "c2")]
     (ascii "ep01") .willBeDeleted (by decide) (by decide)⟩

theorem setPending_valid {m : PendingMap} {k : Nat} {v : Option PendingAdd}
    (hm : ∀ uid rec, m uid = some rec → PendingValid rec)
    (hv : ∀ rec, v = some rec → PendingValid rec) :
    ∀ uid rec, setPending m k v uid = some rec → PendingValid rec := by
  intro uid rec h
  unfold setPending at h
  by_cases huid : uid = k
  · rw [if_pos huid] at h
    exact hv rec h
  · rw [if_neg huid] at h
    exact hm uid rec h

theorem cmd_addmovie_pending_cases (pending : PendingMap) (fromUser : Nat)
    (text : Bytes) (reply : Option ReplyMsg) (now : Nat) :
    (cmd_addmovie pending fromUser text reply now).1 = pending ∨
    ∃ r fid, reply = some r ∧ extractFid r = some fid ∧
      ∃ code, code ≠ [] ∧ 32 ∉ code ∧
        (cmd_addmovie pending fromUser text reply now).1 =
          setPending pending fromUser (some ⟨code, fid, now⟩) := by
  cases reply with
  | none => exact Or.inl rfl
  | some r =>
    cases hf : extractFid r with
    | none => exact Or.inl (by simp [cmd_addmovie, hf])
    | some fid =>
      rcases hsp : splitMax1 text with _ | ⟨t, _ | ⟨arg, rest2⟩⟩
      · exact Or.inl (by simp [cmd_addmovie, hf, hsp])
      · exact Or.inl (by simp [cmd_addmovie, hf, hsp])
      · by_cases hc : pyStrip arg = [] ∨ 32 ∈ pyStrip arg
        · exact Or.inl (by simp only [cmd_addmovie, hf, hsp]; rw [if_pos hc])
        · have hc2 := not_or.mp hc
          refine Or.inr ⟨r, fid, rfl, hf, pyStrip arg, hc2.1, hc2.2, ?_⟩
          simp only [cmd_addmovie, hf, hsp]
          rw [if_neg hc]

theorem receive_cover_pending_cases (persistOk : Bool) (pending : PendingMap)
    (db : List Row) (fromUser : Nat) (photoFid username : Bytes) :
    (receive_cover persistOk pending db fromUser photoFid username).1 = pending ∨
    (pending fromUser ≠ none ∧
      (receive_cover persistOk pending db fromUser photoFid username).1 =
        setPending pending fromUser none) := by
  cases hp : pending fromUser with
  | none => exact Or.inl (by simp [receive_cover, hp])
  | some rec =>
    cases persistOk with
    | false => exact Or.inl (by simp [receive_cover, hp])
    | true =>
      refine Or.inr ⟨by simp, ?_⟩
      simp [receive_cover, hp]

/-- C9: invariant of the pending-upload map.  Starting from a map whose
records are all valid (non-empty, space-free code), any handler
invocation yields a map whose records are all valid, and the map is
either unchanged, or one admin's entry is overwritten with a valid
record whose content reference was taken from the replied-to video or
document of the triggering add command, or one existing entry is
removed. -/
theorem pending_map_invariant (query : Bytes → Option MemberStatus)
    (channels : List Bytes) (username : Bytes) (deleteAfter : Nat)
    (s : BotState) (e : Event)
    (hinv : ∀ uid rec, s.pending uid = some rec → PendingValid rec) :
    (∀ uid rec,
        (handle query channels username deleteAfter s e).1.pending uid = some rec →
        PendingValid rec) ∧
    ((handle query channels username deleteAfter s e).1.pending = s.pending ∨
     (∃ uid rec, PendingValid rec ∧ RecFromEvent e rec ∧
        (handle query channels username deleteAfter s e).1.pending =
          setPending s.pending uid (some rec)) ∨
     (∃ uid, s.pending uid ≠ none ∧
        (handle query channels username deleteAfter s e).1.pending =
          setPending s.pending uid none)) := by
  cases e with
  | start fromUser command dbOk => exact ⟨hinv, Or.inl rfl⟩
  | addmovie fromUser text reply now =>
    simp only [handle]
    rcases cmd_addmovie_pending_cases s.pending fromUser text reply now with h |
      ⟨r, fid, hr, hf, code, hne, hsp32, h⟩
    · rw [h]
      exact ⟨hinv, Or.inl rfl⟩
    · subst hr
      rw [h]
      refine ⟨?_, Or.inr (Or.inl
        ⟨fromUser, ⟨code, fid, now⟩, ⟨hne, hsp32⟩, ⟨r, rfl, hf⟩, rfl⟩)⟩
      exact setPending_valid hinv
        (fun rec hrec => by cases hrec; exact ⟨hne, hsp32⟩)
  | photo fromUser photoFid persistOk =>
    simp only [handle]
    rcases receive_cover_pending_cases persistOk s.pending s.db fromUser photoFid
        username with h | ⟨hne, h⟩
    · rw [h]
      exact ⟨hinv, Or.inl rfl⟩
    · rw [h]
      refine ⟨?_, Or.inr (Or.inr ⟨fromUser, hne, rfl⟩)⟩
      exact setPending_valid hinv (fun rec hrec => Option.noConfusion hrec)

/-- Witness for C9: one add-command event against the empty state. -/
theorem pending_map_invariant_witness :
    (∀ uid rec, (BotState.mk emptyPending []).pending uid = some rec →
      PendingValid rec) ∧
    ((∀ uid rec,
        (handle queryDemo [] (ascii "bot") 1200 (BotState.mk emptyPending [])
            (Event.addmovie 7 (ascii "/addmovie demo")
              (some ⟨some (ascii "vid"), none⟩) 0)).1.pending uid = some rec →
        PendingValid rec) ∧
     ((handle queryDemo [] (ascii "bot") 1200 (BotState.mk emptyPending [])
          (Event.addmovie 7 (ascii "/addmovie demo")
            (some ⟨some (ascii "vid"), none⟩) 0)).1.pending =
        (BotState.mk emptyPending []).pending ∨
      (∃ uid rec, PendingValid rec ∧
         RecFromEvent (Event.addmovie 7 (ascii "/addmovie demo")
           (some ⟨some (ascii "vid"), none⟩) 0) rec ∧
         (handle queryDemo [] (ascii "bot") 1200 (BotState.mk emptyPending [])
             (Event.addmovie 7 (ascii "/addmovie demo")
               (some ⟨some (ascii "vid"), none⟩) 0)).1.pending =
           setPending (BotState.mk emptyPending []).pending uid (some rec)) ∨
      (∃ uid, (BotState.mk emptyPending []).pending uid ≠ none ∧
         (handle queryDemo [] (ascii "bot") 1200 (BotState.mk emptyPending [])
             (Event.addmovie 7 (ascii "/addmovie demo")
               (some ⟨some (ascii "vid"), none⟩) 0)).1.pending =
           setPending (BotState.mk emptyPending []).pending uid none))) :=
  ⟨fun _ _ h => Option.noConfusion h,
   pending_map_invariant queryDemo [] (ascii "bot") 1200
     (BotState.mk emptyPending [])
     (Event.addmovie 7 (ascii "/addmovie demo") (some ⟨some (ascii "vid"), none⟩) 0)
     (fun _ _ h => Option.noConfusion h)⟩
